import Mathlib

/-!
# Verification of the credit ledger and usage-metering flow

Shallow embedding of the credit ledger, metering gate, payment
reconciliation and usage-event recorder of the `ai-content-studio`
backend (`src/backend/src/routes/credits.ts`,
`src/backend/src/routes/images.ts`, `src/backend/dist/routes/analytics.js`).

File I/O is abstracted away: the JSON files become explicit values
threaded through each operation (`Ledger`, `List PaymentRecord`,
`Analytics`).  Timestamps (`updatedAt`, `completedAt`) are modelled as
`Nat` parameters.  Analytics event recording (`trackEvent`) is modelled
as a separate state machine; ledger operations return the events they
would log as explicit lists.
-/

/-- One per-user ledger record, as stored in `credits.json`
(`src/backend/src/routes/credits.ts`, interface `CreditsData`). -/
structure LedgerRecord where
  balance : Int
  totalPurchased : Int
  totalUsed : Int
  updatedAt : Nat
deriving DecidableEq, Repr

/-- The credits file: a finite map from user id to record, modelled as an
association list (first occurrence of a key is authoritative, as with a
JS object). -/
abbrev Ledger := List (String × LedgerRecord)

/-- Lookup `data[userId]` in the ledger. -/
def getRec : Ledger → String → Option LedgerRecord
  | [], _ => none
  | (k, v) :: t, u => if k = u then some v else getRec t u

/-- Assignment `data[userId] = r`: replaces the first binding of `u`,
or appends a new one. -/
def setRec : Ledger → String → LedgerRecord → Ledger
  | [], u, r => [(u, r)]
  | (k, v) :: t, u, r => if k = u then (u, r) :: t else (k, v) :: setRec t u r

/-- `getUserCredits` (credits.ts line 108): returns the existing record, or
creates one with 5 free starter credits.  Returns the record together with
the (possibly extended) ledger. -/
def getUserCredits (l : Ledger) (u : String) (now : Nat) :
    LedgerRecord × Ledger :=
  match getRec l u with
  | some r => (r, l)
  | none =>
      let r : LedgerRecord := ⟨5, 0, 0, now⟩
      (r, setRec l u r)

/-- `useCredits` (credits.ts line 123): debit.  Fails (returning `false`
and the unchanged ledger) when the record is missing or the balance is
below `amount`; otherwise decrements `balance`, increments `totalUsed`
and stamps `updatedAt`. -/
def useCredits (l : Ledger) (u : String) (amount : Int) (now : Nat) :
    Bool × Ledger :=
  match getRec l u with
  | none => (false, l)
  | some r =>
      if r.balance < amount then
        (false, l)
      else
        (true, setRec l u
          ⟨r.balance - amount, r.totalPurchased, r.totalUsed + amount, now⟩)

/-- `addCredits` (credits.ts line 136): credit.  A missing record is first
created with `balance = 0` (not the starter balance); then `balance` and
`totalPurchased` are both incremented by `amount`.  The
`credits_purchased` analytics event the source logs here is modelled in
the analytics state machine below.  Returns the updated record and
ledger. -/
def addCredits (l : Ledger) (u : String) (amount : Int) (now : Nat) :
    LedgerRecord × Ledger :=
  let r := (getRec l u).getD ⟨0, 0, 0, now⟩
  let r' : LedgerRecord :=
    ⟨r.balance + amount, r.totalPurchased + amount, r.totalUsed, now⟩
  (r', setRec l u r')

/-! ## Frame lemmas for the association-list store -/

theorem getRec_setRec_self (l : Ledger) (u : String) (r : LedgerRecord) :
    getRec (setRec l u r) u = some r := by
  induction l with
  | nil => simp [setRec, getRec]
  | cons hd t ih =>
      obtain ⟨k, v⟩ := hd
      by_cases h : k = u
      · simp [setRec, getRec, h]
      · simp [setRec, getRec, h, ih]

theorem getRec_setRec_ne (l : Ledger) (u v : String) (r : LedgerRecord)
    (h : v ≠ u) : getRec (setRec l u r) v = getRec l v := by
  induction l with
  | nil => simp [setRec, getRec, Ne.symm h]
  | cons hd t ih =>
      obtain ⟨k, w⟩ := hd
      by_cases hk : k = u
      · subst hk
        simp [setRec, getRec, Ne.symm h]
      · simp [setRec, getRec, hk, ih]

theorem getUserCredits_of_some (l : Ledger) (u : String) (now : Nat)
    (r : LedgerRecord) (h : getRec l u = some r) :
    getUserCredits l u now = (r, l) := by
  simp [getUserCredits, h]

theorem getUserCredits_of_none (l : Ledger) (u : String) (now : Nat)
    (h : getRec l u = none) :
    getUserCredits l u now = (⟨5, 0, 0, now⟩, setRec l u ⟨5, 0, 0, now⟩) := by
  simp [getUserCredits, h]

/-! ## Pricing table (credits.ts lines 16-28) -/

/-- `MODEL_CREDIT_COSTS`: credit cost per generated unit for each model. -/
def MODEL_CREDIT_COSTS : List (String × Int) :=
  [("dall-e-2", 1), ("dall-e-3", 2), ("gpt-image-1", 3), ("gpt-image-1-mini", 1)]

/-- Lookup `MODEL_CREDIT_COSTS[model] || 1`: unknown models fall back to
cost 1 (images.ts line 42). -/
def costOf (model : String) : Int :=
  ((MODEL_CREDIT_COSTS.find? (fun p => p.1 = model)).map (·.2)).getD 1

theorem one_le_costOf (model : String) : 1 ≤ costOf model := by
  by_cases h2 : model = "dall-e-2"
  · simp [costOf, MODEL_CREDIT_COSTS, List.find?, h2]
  by_cases h3 : model = "dall-e-3"
  · simp [costOf, MODEL_CREDIT_COSTS, List.find?, h2, h3]
  by_cases h4 : model = "gpt-image-1"
  · simp [costOf, MODEL_CREDIT_COSTS, List.find?, h2, h3, h4]
  by_cases h5 : model = "gpt-image-1-mini"
  · simp [costOf, MODEL_CREDIT_COSTS, List.find?, h2, h3, h4, h5]
  · simp [costOf, MODEL_CREDIT_COSTS, List.find?,
      Ne.symm h2, Ne.symm h3, Ne.symm h4, Ne.symm h5]

/-! ## Usage events

One analytics event, as passed to `trackEvent(type, userId, metadata)`.
The metadata object is flattened into optional fields; a field is `none`
when the corresponding key is absent from the metadata object at the
call site. -/

/-- A usage event: `type`, `userId` and the metadata keys the analytics
module reads (`credits`, `amount`, `model`) plus the keys the metering
gate writes (`count`, `cost`, `reason`, `error`). -/
structure AEvent where
  type : String
  userId : String
  mCredits : Option Int := none
  mAmount : Option Int := none
  mModel : Option String := none
  mCount : Option Nat := none
  mCost : Option Int := none
  mReason : Option String := none
  mError : Option String := none
deriving DecidableEq, Repr

/-! ## Metering gate: single-image generation (images.ts `/generate`) -/

/-- The request body after zod defaulting (`generateSchema`): `prompt`,
`model`, `n`.  `size`, `quality`, `style` do not affect the ledger or the
events and are omitted. -/
structure GenRequest where
  prompt : String
  model : String
  n : Nat
deriving DecidableEq, Repr

/-- Whether `generateSchema.parse` succeeds: prompt length 1..4000, model
in the enum, `n` in 1..10. -/
def validGenRequest (r : GenRequest) : Bool :=
  1 ≤ r.prompt.length && r.prompt.length ≤ 4000 &&
  (r.model = "dall-e-3" || r.model = "dall-e-2" ||
   r.model = "gpt-image-1" || r.model = "gpt-image-1-mini") &&
  1 ≤ r.n && r.n ≤ 10

/-- Response of the `/generate` handler, projected to the fields the spec
talks about. -/
inductive GenResponse where
  /-- 400: zod validation failure. -/
  | badRequest
  /-- 402: insufficient credits, with `required` and `balance`. -/
  | insufficient (required : Int) (balance : Int)
  /-- 200: success, with `creditsUsed` and `remainingCredits`. -/
  | ok (creditsUsed : Int) (remaining : Int)
  /-- 500: the external generation call failed. -/
  | serverError (msg : String)
deriving DecidableEq, Repr

/-- Output of a metering-gate handler: the HTTP response, the final
ledger, and the analytics events logged during the request (in call
order). -/
structure HandlerOut where
  resp : GenResponse
  ledger : Ledger
  events : List AEvent
deriving DecidableEq, Repr

/-- Message of the zod error logged on a malformed request (the `catch`
block reads `(error as Error).message`). -/
def zodErrorMessage : String := "invalid input"

/-- The `/generate` handler (images.ts lines 36-125).  The external
`generateImage` call is abstracted by `genErr`: `none` means it
succeeded, `some msg` means it threw an error with message `msg`.
On a zod failure the catch block still logs an `image_failed` event
(line 115) before answering 400. -/
def generateHandler (l : Ledger) (u : String) (req : GenRequest)
    (genErr : Option String) (now : Nat) : HandlerOut :=
  if ¬ validGenRequest req then
    { resp := .badRequest,
      ledger := l,
      events := [{ type := "image_failed", userId := u,
                   mModel := some req.model, mError := some zodErrorMessage }] }
  else
    let cost := costOf req.model * (req.n : Int)
    let gc := getUserCredits l u now
    let credits := gc.1
    let l1 := gc.2
    if credits.balance < cost then
      { resp := .insufficient cost credits.balance, ledger := l1, events := [] }
    else
      match genErr with
      | some msg =>
          { resp := .serverError msg,
            ledger := l1,
            events := [{ type := "image_failed", userId := u,
                         mModel := some req.model, mError := some msg }] }
      | none =>
          let l2 := (useCredits l1 u cost now).2
          { resp := .ok cost (credits.balance - cost),
            ledger := l2,
            events :=
              [{ type := "image_generated", userId := u,
                 mModel := some req.model, mCount := some req.n,
                 mCost := some cost },
               { type := "credits_used", userId := u,
                 mCredits := some cost,
                 mReason := some "image_generation" }] }

/-! ## Metering gate: batch generation (images.ts `/batch`) -/

/-- Outcome list of the per-prompt loop: one `Bool` per prompt, `true`
when the external `generateImage` call for that prompt succeeded. -/
abbrev BatchOutcomes := List Bool

/-- `creditsUsed` accumulated by the loop: `+= costPerImage` on each
success (images.ts line 180). -/
def batchCreditsUsed (costPer : Int) (outcomes : BatchOutcomes) : Int :=
  outcomes.foldl (fun acc ok => if ok then acc + costPer else acc) 0

/-- `successCount`: `results.filter(r => r.success).length`. -/
def batchSuccessCount (outcomes : BatchOutcomes) : Nat :=
  (outcomes.filter id).length

/-- The `/batch` handler (images.ts lines 128-217), starting after a
successful `batchSchema.parse`.  Prompt texts only matter through the
success or failure of their external call, so the prompt list is
abstracted to its outcome list. -/
def batchHandler (l : Ledger) (u : String) (model : String)
    (outcomes : BatchOutcomes) (now : Nat) : HandlerOut :=
  let costPer := costOf model
  let totalCost := costPer * (outcomes.length : Int)
  let gc := getUserCredits l u now
  let credits := gc.1
  let l1 := gc.2
  if credits.balance < totalCost then
    { resp := .insufficient totalCost credits.balance, ledger := l1,
      events := [] }
  else
    let used := batchCreditsUsed costPer outcomes
    let succ := batchSuccessCount outcomes
    let step2 : Ledger × List AEvent :=
      if 0 < used then
        ((useCredits l1 u used now).2,
         [{ type := "credits_used", userId := u, mCredits := some used,
            mReason := some "batch_generation" }])
      else (l1, [])
    let evs2 : List AEvent :=
      if 0 < succ then
        [{ type := "image_generated", userId := u, mModel := some model,
           mCount := some succ, mCost := some used }]
      else []
    { resp := .ok used (credits.balance - used),
      ledger := step2.1,
      events := step2.2 ++ evs2 }

/-! ## Payment records and reconciliation (credits.ts lines 42-52, 248-327) -/

/-- Payment status: `'pending' | 'completed' | 'failed'`. -/
inductive PayStatus where
  | pending
  | completed
  | failed
deriving DecidableEq, Repr

/-- One entry of `payments.json` (interface `PaymentData`). -/
structure PaymentRecord where
  id : String
  userId : String
  tierId : String
  credits : Int
  amount : Int
  status : PayStatus
  stripeSessionId : Option String
  createdAt : Nat
  completedAt : Option Nat := none
deriving DecidableEq, Repr

/-- The view of a retrieved Stripe checkout session that the verify and
webhook handlers read: its id, whether `payment_status === 'paid'`, and
the `userId` / `credits` metadata.  `metaUserId = none` models an absent
key and `some ""` an empty string (both falsy in JS); `metaCredits =
none` models an absent or non-numeric `credits` string, for which
`parseInt(... || '0')` yields `0` or `NaN` — in either case the parsed
value is falsy, which we model as `(metaCredits.getD 0) = 0`. -/
structure SessionInfo where
  sessionId : String
  paid : Bool
  metaUserId : Option String
  metaCredits : Option Int
deriving DecidableEq, Repr

/-- `payments.find(p => p.stripeSessionId === sessionId)`. -/
def findPayment (ps : List PaymentRecord) (sid : String) :
    Option PaymentRecord :=
  ps.find? (fun p => p.stripeSessionId = some sid)

/-- Mutating the found record in place and saving the array: the first
record matching `sid` becomes `completed` with `completedAt` stamped. -/
def completeFirst : List PaymentRecord → String → Nat → List PaymentRecord
  | [], _, _ => []
  | p :: ps, sid, now =>
      if p.stripeSessionId = some sid then
        { p with status := .completed, completedAt := some now } :: ps
      else
        p :: completeFirst ps sid now

/-- Response of the `/verify` handler, projected to the fields the spec
talks about. -/
inductive VerifyResponse where
  /-- 400: `payment_status !== 'paid'`. -/
  | notPaid
  /-- 400: `Invalid session metadata`. -/
  | invalidMetadata
  /-- 200: `{ success: true, creditsAdded, balance }`. -/
  | ok (creditsAdded : Int) (balance : Int)
deriving DecidableEq, Repr

/-- Output of a reconciliation handler. -/
structure ReconOut where
  resp : VerifyResponse
  ledger : Ledger
  payments : List PaymentRecord
deriving DecidableEq, Repr

/-- The `/verify` handler (credits.ts lines 248-288), starting after the
session has been retrieved from Stripe.  Note the source answers
`{ success: true, ... }` whenever the session is paid and the metadata is
well-formed, even when no matching payment record exists — the
credit-granting block is simply skipped in that case, and the final
`getUserCredits(userId)` may still create a starter record. -/
def verifyHandler (l : Ledger) (ps : List PaymentRecord)
    (session : SessionInfo) (now : Nat) : ReconOut :=
  if ¬ session.paid then
    { resp := .notPaid, ledger := l, payments := ps }
  else
    let uid := session.metaUserId.getD ""
    let credits := session.metaCredits.getD 0
    if uid = "" ∨ credits = 0 then
      { resp := .invalidMetadata, ledger := l, payments := ps }
    else
      match findPayment ps session.sessionId with
      | some p =>
          if p.status = .pending then
            let ps' := completeFirst ps session.sessionId now
            let l' := (addCredits l uid credits now).2
            let gc := getUserCredits l' uid now
            { resp := .ok credits gc.1.balance, ledger := gc.2,
              payments := ps' }
          else
            let gc := getUserCredits l uid now
            { resp := .ok credits gc.1.balance, ledger := gc.2,
              payments := ps }
      | none =>
          let gc := getUserCredits l uid now
          { resp := .ok credits gc.1.balance, ledger := gc.2,
            payments := ps }

/-- The `/webhook` handler (credits.ts lines 291-327), starting after
signature verification, for an event of type
`checkout.session.completed`.  Credits the ledger only when both
metadata fields are truthy and the first matching payment record is
still pending. -/
def webhookHandler (l : Ledger) (ps : List PaymentRecord)
    (session : SessionInfo) (now : Nat) : Ledger × List PaymentRecord :=
  let uid := session.metaUserId.getD ""
  let credits := session.metaCredits.getD 0
  if uid = "" ∨ credits = 0 then
    (l, ps)
  else
    match findPayment ps session.sessionId with
    | some p =>
        if p.status = .pending then
          (( addCredits l uid credits now).2,
           completeFirst ps session.sessionId now)
        else (l, ps)
    | none => (l, ps)

/-- One reconciliation attempt: `true` selects the synchronous verify
endpoint, `false` the asynchronous webhook.  Only the resulting ledger
and payments list are kept. -/
def reconStep (viaVerify : Bool) (st : Ledger × List PaymentRecord)
    (session : SessionInfo) (now : Nat) : Ledger × List PaymentRecord :=
  if viaVerify then
    let out := verifyHandler st.1 st.2 session now
    (out.ledger, out.payments)
  else
    webhookHandler st.1 st.2 session now

/-- Balance of `u` as recorded in the ledger (`none` when no record). -/
def balanceOf (l : Ledger) (u : String) : Option Int :=
  (getRec l u).map LedgerRecord.balance

/-! ## Usage event recorder (dist/routes/analytics.js) -/

/-- The `summary` object of `analytics.json`.  `conversionRate` and
`avgRevenuePerUser` are exact rationals standing for the JS number
computed by the same expression. -/
structure Summary where
  totalImagesGenerated : Nat
  totalImagesFailed : Nat
  totalCreditsPurchased : Int
  totalCreditsUsed : Int
  totalRevenue : Int
  uniqueUsers : Nat
  conversionRate : Rat
  avgRevenuePerUser : Rat
  topModels : List (String × Nat)
deriving DecidableEq, Repr

/-- The analytics store, projected to the parts the summary aggregates
depend on: the retained event list and the summary.  The `daily` buckets
never feed back into `summary` and are omitted. -/
structure Analytics where
  events : List AEvent
  summary : Summary
deriving DecidableEq, Repr

/-- Initial summary written by `initAnalytics` when the file is absent. -/
def initialSummary : Summary :=
  { totalImagesGenerated := 0, totalImagesFailed := 0,
    totalCreditsPurchased := 0, totalCreditsUsed := 0, totalRevenue := 0,
    uniqueUsers := 0, conversionRate := 0, avgRevenuePerUser := 0,
    topModels := [] }

/-- Initial analytics store: no events, zeroed summary. -/
def initialAnalytics : Analytics :=
  { events := [], summary := initialSummary }

/-- The retention cap: `events.slice(-10000)` once more than 10000
events are stored (analytics.js lines 57-60). -/
def capEvents (es : List AEvent) : List AEvent :=
  if 10000 < es.length then es.drop (es.length - 10000) else es

/-- The `switch (type)` block of `trackEvent` (analytics.js lines
76-106): per-type incremental counter updates.  `metadata.credits || 0`
becomes `getD 0`; `if (metadata.amount)` tests JS truthiness, i.e. the
value is present and non-zero. -/
def applyType (s : Summary) (e : AEvent) : Summary :=
  if e.type = "image_generated" then
    { s with totalImagesGenerated := s.totalImagesGenerated + 1 }
  else if e.type = "image_failed" then
    { s with totalImagesFailed := s.totalImagesFailed + 1 }
  else if e.type = "credits_purchased" then
    let s := { s with
      totalCreditsPurchased := s.totalCreditsPurchased + e.mCredits.getD 0 }
    match e.mAmount with
    | some a => if a = 0 then s else { s with totalRevenue := s.totalRevenue + a }
    | none => s
  else if e.type = "credits_used" then
    { s with totalCreditsUsed := s.totalCreditsUsed + e.mCredits.getD 0 }
  else
    s

/-- Insert into a descending-by-count list, after all entries of count
`≥ x.2`: a stable descending sort step, matching the stable
`sort((a, b) => b.count - a.count)` of the source. -/
def insertDesc (x : String × Nat) : List (String × Nat) → List (String × Nat)
  | [] => [x]
  | y :: t => if y.2 < x.2 then x :: y :: t else y :: insertDesc x t

/-- Stable descending sort by count. -/
def sortDesc (xs : List (String × Nat)) : List (String × Nat) :=
  xs.foldr insertDesc []

/-- Bump the count of `m` in an association list kept in first-occurrence
order, as `modelCounts[m] = (modelCounts[m] || 0) + 1` does over a JS
object. -/
def bumpCount (m : String) : List (String × Nat) → List (String × Nat)
  | [] => [(m, 1)]
  | (k, n) :: t => if k = m then (k, n + 1) :: t else (k, n) :: bumpCount m t

/-- Per-model generation counts over the event list (analytics.js lines
124-129): `image_generated` events with a truthy `metadata.model`. -/
def modelCounts (es : List AEvent) : List (String × Nat) :=
  (es.filterMap (fun e =>
      if e.type = "image_generated" then
        match e.mModel with
        | some m => if m = "" then none else some m
        | none => none
      else none)).foldl (fun acc m => bumpCount m acc) []

/-- Number of distinct user ids among the events (`new Set(...).size`). -/
def distinctUsers (es : List AEvent) : Nat :=
  (es.map AEvent.userId).dedup.length

/-- Number of distinct user ids among `credits_purchased` events. -/
def purchasingUsers (es : List AEvent) : Nat :=
  ((es.filter (fun e => e.type = "credits_purchased")).map
    AEvent.userId).dedup.length

/-- The recompute block of `trackEvent` (analytics.js lines 111-134):
`uniqueUsers`, `conversionRate`, `avgRevenuePerUser` and `topModels` are
recomputed from the retained event list after every append. -/
def recompute (s : Summary) (es : List AEvent) : Summary :=
  let all := distinctUsers es
  { s with
    uniqueUsers := all,
    conversionRate :=
      if 0 < all then ((purchasingUsers es : Rat) / (all : Rat)) * 100 else 0,
    avgRevenuePerUser :=
      if 0 < all then (s.totalRevenue : Rat) / (all : Rat) else 0,
    topModels := (sortDesc (modelCounts es)).take 5 }

/-- `trackEvent` (analytics.js lines 47-136), projected to the retained
event list and the summary: append the event, evict past the retention
cap, apply the per-type incremental updates, then recompute the derived
aggregates from the retained events. -/
def trackEvent (s : Analytics) (e : AEvent) : Analytics :=
  let events := capEvents (s.events ++ [e])
  { events := events, summary := recompute (applyType s.summary e) events }

/-- Run a sequence of events through `trackEvent` from the initial
store. -/
def runEvents (es : List AEvent) : Analytics :=
  es.foldl trackEvent initialAnalytics

/-- Replay-from-scratch of an analytics store: rebuild a store from
nothing but the retained event log, and read off its summary.  This is
the "recompute the materialized view by replaying the event sequence"
operation of the spec. -/
def replaySummary (s : Analytics) : Summary :=
  (runEvents s.events).summary

/-! ## Characterization lemmas for the ledger operations -/

theorem useCredits_of_none (l : Ledger) (u : String) (amount : Int)
    (now : Nat) (h : getRec l u = none) :
    useCredits l u amount now = (false, l) := by
  simp [useCredits, h]

theorem useCredits_of_lt (l : Ledger) (u : String) (amount : Int)
    (now : Nat) (r : LedgerRecord) (h : getRec l u = some r)
    (hb : r.balance < amount) :
    useCredits l u amount now = (false, l) := by
  simp [useCredits, h, hb]

theorem useCredits_of_ge (l : Ledger) (u : String) (amount : Int)
    (now : Nat) (r : LedgerRecord) (h : getRec l u = some r)
    (hb : ¬ r.balance < amount) :
    useCredits l u amount now =
      (true, setRec l u
        ⟨r.balance - amount, r.totalPurchased, r.totalUsed + amount, now⟩) := by
  simp [useCredits, h, hb]

theorem addCredits_of_some (l : Ledger) (u : String) (a : Int) (now : Nat)
    (r : LedgerRecord) (h : getRec l u = some r) :
    addCredits l u a now =
      (⟨r.balance + a, r.totalPurchased + a, r.totalUsed, now⟩,
       setRec l u ⟨r.balance + a, r.totalPurchased + a, r.totalUsed, now⟩) := by
  simp [addCredits, h]

theorem addCredits_of_none (l : Ledger) (u : String) (a : Int) (now : Nat)
    (h : getRec l u = none) :
    addCredits l u a now =
      (⟨a, a, 0, now⟩, setRec l u ⟨a, a, 0, now⟩) := by
  simp [addCredits, h]

/-! ## Sequences of ledger operations (for the ledger invariant) -/

/-- One ledger operation on a fixed user: a debit (`useCredits`) or a
credit (`addCredits`). -/
inductive LOp where
  | debit (amount : Int)
  | credit (amount : Int)
deriving DecidableEq, Repr

/-- The amount carried by an operation. -/
def LOp.amount : LOp → Int
  | .debit a => a
  | .credit a => a

/-- Apply one operation to the ledger, keeping only the resulting
ledger. -/
def applyOp (l : Ledger) (u : String) (now : Nat) : LOp → Ledger
  | .debit a => (useCredits l u a now).2
  | .credit a => (addCredits l u a now).2

/-- Apply a sequence of operations left to right. -/
def applyOps (l : Ledger) (u : String) (now : Nat) (ops : List LOp) : Ledger :=
  ops.foldl (fun acc op => applyOp acc u now op) l

/-- One step preserves the ledger invariant
`0 ≤ balance ∧ balance = totalPurchased - totalUsed + 5`. -/
theorem invariant_step (l : Ledger) (u : String) (now : Nat) (op : LOp)
    (ha : 0 ≤ op.amount) (r : LedgerRecord) (h : getRec l u = some r)
    (hb : 0 ≤ r.balance) (he : r.balance = r.totalPurchased - r.totalUsed + 5) :
    ∃ r', getRec (applyOp l u now op) u = some r' ∧
      0 ≤ r'.balance ∧
      r'.balance = r'.totalPurchased - r'.totalUsed + 5 := by
  cases op with
  | debit a =>
      simp only [LOp.amount] at ha
      by_cases hlt : r.balance < a
      · refine ⟨r, ?_, hb, he⟩
        simp [applyOp, useCredits_of_lt l u a now r h hlt, h]
      · refine ⟨⟨r.balance - a, r.totalPurchased, r.totalUsed + a, now⟩, ?_, ?_, ?_⟩
        · simp [applyOp, useCredits_of_ge l u a now r h hlt, getRec_setRec_self]
        · show 0 ≤ r.balance - a
          omega
        · show r.balance - a = r.totalPurchased - (r.totalUsed + a) + 5
          omega
  | credit a =>
      simp only [LOp.amount] at ha
      refine ⟨⟨r.balance + a, r.totalPurchased + a, r.totalUsed, now⟩, ?_, ?_, ?_⟩
      · simp [applyOp, addCredits_of_some l u a now r h, getRec_setRec_self]
      · show 0 ≤ r.balance + a
        omega
      · show r.balance + a = (r.totalPurchased + a) - r.totalUsed + 5
        omega

/-- The invariant is preserved by any sequence of non-negative
operations. -/
theorem invariant_fold (u : String) (now : Nat) (ops : List LOp)
    (hops : ∀ op ∈ ops, 0 ≤ op.amount) :
    ∀ l r, getRec l u = some r → 0 ≤ r.balance →
      r.balance = r.totalPurchased - r.totalUsed + 5 →
      ∃ r', getRec (applyOps l u now ops) u = some r' ∧
        0 ≤ r'.balance ∧
        r'.balance = r'.totalPurchased - r'.totalUsed + 5 := by
  induction ops with
  | nil =>
      intro l r h hb he
      exact ⟨r, h, hb, he⟩
  | cons op rest ih =>
      intro l r h hb he
      obtain ⟨r', h', hb', he'⟩ :=
        invariant_step l u now op (hops op (by simp)) r h hb he
      have hrest : ∀ o ∈ rest, 0 ≤ o.amount := fun o ho => hops o (by simp [ho])
      obtain ⟨r'', h'', hb'', he''⟩ := ih hrest (applyOp l u now op) r' h' hb' he'
      exact ⟨r'', h'', hb'', he''⟩

/-- C1: a record created by `get(userId)` starts at
`balance = 5, totalPurchased = 0, totalUsed = 0`, and after any sequence
of debit/credit operations with non-negative amounts the record still
satisfies `balance ≥ 0` and `balance = totalPurchased - totalUsed + 5`.
Quantifying over all sequences covers the state after every
intermediate operation (as the end state of the corresponding prefix). -/
theorem ledger_invariant_holds (l : Ledger) (u : String) (now now2 : Nat)
    (ops : List LOp) (hl : getRec l u = none)
    (hops : ∀ op ∈ ops, 0 ≤ op.amount) :
    ∃ r, getRec (applyOps (getUserCredits l u now).2 u now2 ops) u = some r ∧
      0 ≤ r.balance ∧
      r.balance = r.totalPurchased - r.totalUsed + 5 := by
  have hinit : getRec (getUserCredits l u now).2 u = some ⟨5, 0, 0, now⟩ := by
    rw [getUserCredits_of_none l u now hl]
    exact getRec_setRec_self l u _
  exact invariant_fold u now2 ops hops _ _ hinit (by simp) (by simp)

/-- Witness for C1: a fresh user, then a credit of 10 and a debit of 3. -/
theorem ledger_invariant_holds_witness :
    ∃ r, getRec
        (applyOps (getUserCredits [] "u" 0).2 "u" 1
          [LOp.credit 10, LOp.debit 3]) "u" = some r ∧
      0 ≤ r.balance ∧
      r.balance = r.totalPurchased - r.totalUsed + 5 :=
  ledger_invariant_holds [] "u" 0 1 [LOp.credit 10, LOp.debit 3]
    (by decide) (by decide)

/-- C2: `useCredits` succeeds exactly when a record exists with
`balance ≥ amount`; on success the balance drops by exactly `amount` and
`totalUsed` rises by exactly `amount` (other users untouched); on
failure the ledger is returned completely unchanged. -/
theorem useCredits_correct (l : Ledger) (u : String) (amount : Int)
    (now : Nat) :
    ((useCredits l u amount now).1 = true ↔
      ∃ r, getRec l u = some r ∧ amount ≤ r.balance) ∧
    (∀ r, getRec l u = some r → amount ≤ r.balance →
      getRec (useCredits l u amount now).2 u =
        some ⟨r.balance - amount, r.totalPurchased, r.totalUsed + amount, now⟩ ∧
      ∀ v, v ≠ u → getRec (useCredits l u amount now).2 v = getRec l v) ∧
    ((useCredits l u amount now).1 = false →
      (useCredits l u amount now).2 = l) := by
  refine ⟨⟨?_, ?_⟩, ?_, ?_⟩
  · intro h
    cases hr : getRec l u with
    | none => rw [useCredits_of_none l u amount now hr] at h; exact absurd h (by simp)
    | some r =>
        by_cases hlt : r.balance < amount
        · rw [useCredits_of_lt l u amount now r hr hlt] at h
          exact absurd h (by simp)
        · exact ⟨r, rfl, not_lt.mp hlt⟩
  · rintro ⟨r, hr, hle⟩
    rw [useCredits_of_ge l u amount now r hr (not_lt.mpr hle)]
  · intro r hr hle
    rw [useCredits_of_ge l u amount now r hr (not_lt.mpr hle)]
    exact ⟨getRec_setRec_self l u _, fun v hv => getRec_setRec_ne l u v _ hv⟩
  · intro h
    cases hr : getRec l u with
    | none => rw [useCredits_of_none l u amount now hr]
    | some r =>
        by_cases hlt : r.balance < amount
        · rw [useCredits_of_lt l u amount now r hr hlt]
        · rw [useCredits_of_ge l u amount now r hr hlt] at h
          exact absurd h (by simp)

/-- Witness for C2: a user with balance 5 debited by 2 ends at
balance 3, totalUsed 2. -/
theorem useCredits_correct_witness :
    (useCredits [("u", ⟨5, 0, 0, 0⟩)] "u" 2 1).1 = true ∧
    getRec (useCredits [("u", ⟨5, 0, 0, 0⟩)] "u" 2 1).2 "u" =
      some ⟨3, 0, 2, 1⟩ :=
  ⟨(useCredits_correct [("u", ⟨5, 0, 0, 0⟩)] "u" 2 1).1.mpr
      ⟨⟨5, 0, 0, 0⟩, rfl, by decide⟩,
   ((useCredits_correct [("u", ⟨5, 0, 0, 0⟩)] "u" 2 1).2.1
      ⟨5, 0, 0, 0⟩ rfl (by decide)).1⟩

/-- C10: for a user with no ledger record, `addCredits` creates the
record with balance 0 (not the starter balance) and then credits it, so
the user ends with `balance = a, totalPurchased = a, totalUsed = 0`;
the 5 starter credits appear only on a record first created via
`getUserCredits`. -/
theorem addCredits_fresh_user (l : Ledger) (u : String) (a : Int)
    (now : Nat) (h : getRec l u = none) :
    getRec (addCredits l u a now).2 u = some ⟨a, a, 0, now⟩ ∧
    (getUserCredits l u now).1 = ⟨5, 0, 0, now⟩ := by
  constructor
  · rw [addCredits_of_none l u a now h]
    exact getRec_setRec_self l u _
  · rw [getUserCredits_of_none l u now h]

/-- Witness for C10 at a concrete fresh user credited with 7. -/
theorem addCredits_fresh_user_witness :
    getRec (addCredits [] "u" 7 0).2 "u" = some ⟨7, 7, 0, 0⟩ ∧
    (getUserCredits [] "u" 0).1 = ⟨5, 0, 0, 0⟩ :=
  addCredits_fresh_user [] "u" 7 0 rfl

/-! ## Claims about the single-image metering gate -/

/-- C3: with `cost = modelCost * n`, an insufficient balance yields a 402
carrying `required = cost` and the current balance, with the ledger
unchanged and no event logged; with a sufficient balance and a successful
external generation, the ledger is debited by exactly `cost` and exactly
one `image_generated` event plus one `credits_used` event with
`credits = cost` are logged. -/
theorem generate_metering (l : Ledger) (u : String) (req : GenRequest)
    (genErr : Option String) (now : Nat)
    (hreq : validGenRequest req = true)
    (r : LedgerRecord) (hr : getRec l u = some r) :
    (r.balance < costOf req.model * (req.n : Int) →
      (generateHandler l u req genErr now).resp =
        .insufficient (costOf req.model * (req.n : Int)) r.balance ∧
      (generateHandler l u req genErr now).ledger = l ∧
      (generateHandler l u req genErr now).events = []) ∧
    (costOf req.model * (req.n : Int) ≤ r.balance → genErr = none →
      getRec (generateHandler l u req genErr now).ledger u =
        some ⟨r.balance - costOf req.model * (req.n : Int),
              r.totalPurchased,
              r.totalUsed + costOf req.model * (req.n : Int), now⟩ ∧
      (generateHandler l u req genErr now).events =
        [{ type := "image_generated", userId := u, mModel := some req.model,
           mCount := some req.n,
           mCost := some (costOf req.model * (req.n : Int)) },
         { type := "credits_used", userId := u,
           mCredits := some (costOf req.model * (req.n : Int)),
           mReason := some "image_generation" }]) := by
  have hgc : getUserCredits l u now = (r, l) :=
    getUserCredits_of_some l u now r hr
  constructor
  · intro hlt
    refine ⟨?_, ?_, ?_⟩ <;> simp [generateHandler, hreq, hgc, hlt]
  · intro hge hgen
    subst hgen
    have hnlt : ¬ r.balance < costOf req.model * (req.n : Int) :=
      not_lt.mpr hge
    constructor
    · simp [generateHandler, hreq, hgc, hnlt,
        useCredits_of_ge l u (costOf req.model * (req.n : Int)) now r hr hnlt,
        getRec_setRec_self]
    · simp [generateHandler, hreq, hgc, hnlt]

/-- Witness for C3: model dall-e-3 (cost 2), n = 1, against balance 1:
the gate answers 402 with required 2 and balance 1, no mutation, no
event. -/
theorem generate_metering_witness :
    (generateHandler [("u", ⟨1, 0, 0, 0⟩)] "u" ⟨"cat", "dall-e-3", 1⟩
        none 1).resp = .insufficient 2 1 ∧
    (generateHandler [("u", ⟨1, 0, 0, 0⟩)] "u" ⟨"cat", "dall-e-3", 1⟩
        none 1).ledger = [("u", ⟨1, 0, 0, 0⟩)] ∧
    (generateHandler [("u", ⟨1, 0, 0, 0⟩)] "u" ⟨"cat", "dall-e-3", 1⟩
        none 1).events = [] := by
  have h := (generate_metering [("u", ⟨1, 0, 0, 0⟩)] "u"
    ⟨"cat", "dall-e-3", 1⟩ none 1 (by decide) ⟨1, 0, 0, 0⟩ rfl).1 (by decide)
  exact ⟨by rw [h.1]; decide, h.2.1, h.2.2⟩

/-- C5: when the external generation fails after authorization, the
ledger is completely unchanged (in particular no debit) and exactly one
`image_failed` event carrying the error message is logged. -/
theorem generate_failure_no_charge (l : Ledger) (u : String)
    (req : GenRequest) (msg : String) (now : Nat)
    (hreq : validGenRequest req = true)
    (r : LedgerRecord) (hr : getRec l u = some r)
    (hge : costOf req.model * (req.n : Int) ≤ r.balance) :
    (generateHandler l u req (some msg) now).ledger = l ∧
    (generateHandler l u req (some msg) now).events =
      [{ type := "image_failed", userId := u, mModel := some req.model,
         mError := some msg }] := by
  have hgc : getUserCredits l u now = (r, l) :=
    getUserCredits_of_some l u now r hr
  have hnlt : ¬ r.balance < costOf req.model * (req.n : Int) :=
    not_lt.mpr hge
  constructor <;> simp [generateHandler, hreq, hgc, hnlt]

/-- Witness for C5: an authorized request whose provider call fails
leaves the ledger untouched and logs only the failure event. -/
theorem generate_failure_no_charge_witness :
    (generateHandler [("u", ⟨5, 0, 0, 0⟩)] "u" ⟨"cat", "dall-e-3", 1⟩
        (some "timeout") 1).ledger = [("u", ⟨5, 0, 0, 0⟩)] ∧
    (generateHandler [("u", ⟨5, 0, 0, 0⟩)] "u" ⟨"cat", "dall-e-3", 1⟩
        (some "timeout") 1).events =
      [{ type := "image_failed", userId := "u",
         mModel := some "dall-e-3", mError := some "timeout" }] :=
  generate_failure_no_charge [("u", ⟨5, 0, 0, 0⟩)] "u"
    ⟨"cat", "dall-e-3", 1⟩ "timeout" 1 (by decide) ⟨5, 0, 0, 0⟩ rfl
    (by decide)

/-- C8 counterexample: the malformed request with an empty prompt is
rejected with 400 and the ledger is untouched, but — contrary to the
claim that no event of any type is recorded — the catch block logs an
`image_failed` event. -/
theorem generate_badRequest_event_logged :
    (generateHandler [("u", ⟨5, 0, 0, 0⟩)] "u" ⟨"", "dall-e-3", 1⟩
        none 0).resp = .badRequest ∧
    (generateHandler [("u", ⟨5, 0, 0, 0⟩)] "u" ⟨"", "dall-e-3", 1⟩
        none 0).events ≠ [] := by
  decide

/-- C8 (amended): a malformed generation request is rejected with 400
before any ledger access — the ledger is returned unchanged — but one
`image_failed` event recording the validation error is logged. -/
theorem generate_badRequest_spec (l : Ledger) (u : String)
    (req : GenRequest) (genErr : Option String) (now : Nat)
    (hreq : validGenRequest req = false) :
    (generateHandler l u req genErr now).resp = .badRequest ∧
    (generateHandler l u req genErr now).ledger = l ∧
    (generateHandler l u req genErr now).events =
      [{ type := "image_failed", userId := u, mModel := some req.model,
         mError := some zodErrorMessage }] := by
  refine ⟨?_, ?_, ?_⟩ <;> simp [generateHandler, hreq]

/-- Witness for the amended C8 at a concrete malformed request (`n = 0`
fails the schema). -/
theorem generate_badRequest_spec_witness :
    (generateHandler [] "u" ⟨"cat", "dall-e-3", 0⟩ none 0).resp =
      .badRequest ∧
    (generateHandler [] "u" ⟨"cat", "dall-e-3", 0⟩ none 0).ledger = [] ∧
    (generateHandler [] "u" ⟨"cat", "dall-e-3", 0⟩ none 0).events =
      [{ type := "image_failed", userId := "u",
         mModel := some "dall-e-3", mError := some zodErrorMessage }] :=
  generate_badRequest_spec [] "u" ⟨"cat", "dall-e-3", 0⟩ none 0 (by decide)

/-! ## Claims about the batch metering gate -/

/-- The loop accumulator equals the per-image cost times the number of
successes. -/
theorem batchCreditsUsed_eq_mul (costPer : Int) :
    ∀ (outcomes : BatchOutcomes) (acc : Int),
      outcomes.foldl (fun a ok => if ok then a + costPer else a) acc =
        acc + costPer * ((outcomes.filter id).length : Int)
  | [], acc => by simp
  | true :: rest, acc => by
      simp [List.filter, batchCreditsUsed_eq_mul costPer rest (acc + costPer)]
      ring
  | false :: rest, acc => by
      simp [List.filter, batchCreditsUsed_eq_mul costPer rest acc]

theorem batchCreditsUsed_eq (costPer : Int) (outcomes : BatchOutcomes) :
    batchCreditsUsed costPer outcomes =
      costPer * ((batchSuccessCount outcomes : Nat) : Int) := by
  have h := batchCreditsUsed_eq_mul costPer outcomes 0
  simpa [batchCreditsUsed, batchSuccessCount] using h

/-- C6: in a batch with both successes and failures, the ledger is
debited once at the end by exactly `costPer * successes`, and exactly one
`credits_used` event for the summed cost plus one `image_generated`
event with `count = successes` are logged. -/
theorem batch_partial_charge (l : Ledger) (u : String) (model : String)
    (outcomes : BatchOutcomes) (now : Nat) (r : LedgerRecord)
    (hr : getRec l u = some r)
    (hbal : costOf model * (outcomes.length : Int) ≤ r.balance)
    (hsucc : 0 < batchSuccessCount outcomes)
    (hfail : batchSuccessCount outcomes < outcomes.length) :
    getRec (batchHandler l u model outcomes now).ledger u =
      some ⟨r.balance - costOf model * (batchSuccessCount outcomes : Int),
            r.totalPurchased,
            r.totalUsed + costOf model * (batchSuccessCount outcomes : Int),
            now⟩ ∧
    (batchHandler l u model outcomes now).ledger =
      (useCredits l u (costOf model * (batchSuccessCount outcomes : Int))
        now).2 ∧
    (batchHandler l u model outcomes now).events =
      [{ type := "credits_used", userId := u,
         mCredits := some (costOf model * (batchSuccessCount outcomes : Int)),
         mReason := some "batch_generation" },
       { type := "image_generated", userId := u, mModel := some model,
         mCount := some (batchSuccessCount outcomes),
         mCost := some (costOf model * (batchSuccessCount outcomes : Int)) }] := by
  have hgc : getUserCredits l u now = (r, l) :=
    getUserCredits_of_some l u now r hr
  have hcost : (1 : Int) ≤ costOf model := one_le_costOf model
  have hsuccZ : (0 : Int) < (batchSuccessCount outcomes : Int) := by
    exact_mod_cast hsucc
  have hused_pos : 0 < costOf model * (batchSuccessCount outcomes : Int) := by
    nlinarith
  have hle : costOf model * (batchSuccessCount outcomes : Int) ≤
      costOf model * (outcomes.length : Int) := by
    have hln : (batchSuccessCount outcomes : Int) ≤ (outcomes.length : Int) := by
      exact_mod_cast le_of_lt hfail
    nlinarith
  have hnlt_total : ¬ r.balance < costOf model * (outcomes.length : Int) :=
    not_lt.mpr hbal
  have hnlt_used : ¬ r.balance <
      costOf model * (batchSuccessCount outcomes : Int) :=
    not_lt.mpr (le_trans hle hbal)
  have huse := useCredits_of_ge l u
    (costOf model * (batchSuccessCount outcomes : Int)) now r hr hnlt_used
  refine ⟨?_, ?_, ?_⟩
  · simp [batchHandler, hgc, hnlt_total, batchCreditsUsed_eq, hused_pos,
      hsucc, huse, getRec_setRec_self]
  · simp [batchHandler, hgc, hnlt_total, batchCreditsUsed_eq, hused_pos,
      hsucc]
  · simp [batchHandler, hgc, hnlt_total, batchCreditsUsed_eq, hused_pos,
      hsucc]

/-- Witness for C6: batch of 5 prompts with model dall-e-3 (cost 2),
2 failures — 3 successes are charged 6 credits in one debit, one
`credits_used` event with credits 6 and one `image_generated` event with
count 3 are logged. -/
theorem batch_partial_charge_witness :
    getRec (batchHandler [("u", ⟨10, 0, 0, 0⟩)] "u" "dall-e-3"
        [true, false, true, true, false] 1).ledger "u" =
      some ⟨4, 0, 6, 1⟩ ∧
    (batchHandler [("u", ⟨10, 0, 0, 0⟩)] "u" "dall-e-3"
        [true, false, true, true, false] 1).ledger =
      (useCredits [("u", ⟨10, 0, 0, 0⟩)] "u" 6 1).2 ∧
    (batchHandler [("u", ⟨10, 0, 0, 0⟩)] "u" "dall-e-3"
        [true, false, true, true, false] 1).events =
      [{ type := "credits_used", userId := "u", mCredits := some 6,
         mReason := some "batch_generation" },
       { type := "image_generated", userId := "u",
         mModel := some "dall-e-3", mCount := some 3,
         mCost := some 6 }] := by
  have h := batch_partial_charge [("u", ⟨10, 0, 0, 0⟩)] "u" "dall-e-3"
    [true, false, true, true, false] 1 ⟨10, 0, 0, 0⟩ rfl (by decide)
    (by decide) (by decide)
  refine ⟨?_, ?_, ?_⟩
  · rw [h.1]; decide
  · rw [h.2.1]; decide
  · rw [h.2.2]; decide

/-! ## Claims about payment reconciliation -/

/-- Completing the first matching record makes the first match of a later
lookup that same record, now completed. -/
theorem findPayment_completeFirst (ps : List PaymentRecord) (sid : String)
    (now : Nat) (p : PaymentRecord) (hp : findPayment ps sid = some p) :
    findPayment (completeFirst ps sid now) sid =
      some { p with status := .completed, completedAt := some now } := by
  induction ps with
  | nil => simp [findPayment] at hp
  | cons q t ih =>
      by_cases hq : q.stripeSessionId = some sid
      · have hpq : p = q := by
          simp [findPayment, List.find?, hq] at hp
          exact hp.symm
        subst hpq
        simp [findPayment, completeFirst, List.find?, hq]
      · have ht : findPayment t sid = some p := by
          simpa [findPayment, List.find?, hq] using hp
        simpa [findPayment, completeFirst, List.find?, hq] using ih ht

/-- A reconciliation attempt (either entry point) on a paid session with
valid metadata and a pending first matching payment record performs the
pending → completed transition and credits the ledger. -/
theorem reconStep_pending (a : Bool) (l : Ledger) (ps : List PaymentRecord)
    (s : SessionInfo) (n1 : Nat) (uid : String) (c : Int)
    (hpaid : s.paid = true)
    (huid : s.metaUserId = some uid) (huid' : uid ≠ "")
    (hc : s.metaCredits = some c) (hc' : c ≠ 0)
    (p : PaymentRecord) (hp : findPayment ps s.sessionId = some p)
    (hpend : p.status = .pending) :
    reconStep a (l, ps) s n1 =
      ((addCredits l uid c n1).2, completeFirst ps s.sessionId n1) := by
  have hrec : getRec (addCredits l uid c n1).2 uid =
      some ((addCredits l uid c n1).1) := by
    cases hl : getRec l uid with
    | some r =>
        rw [addCredits_of_some l uid c n1 r hl]
        exact getRec_setRec_self l uid _
    | none =>
        rw [addCredits_of_none l uid c n1 hl]
        exact getRec_setRec_self l uid _
  cases a with
  | true =>
      simp [reconStep, verifyHandler, hpaid, huid, huid', hc, hc', hp, hpend,
        getUserCredits_of_some _ uid n1 _ hrec]
  | false =>
      simp [reconStep, webhookHandler, huid, huid', hc, hc', hp, hpend]

/-- A reconciliation attempt on a session whose first matching payment
record is already completed, against a ledger that already holds a record
for the metadata user, changes nothing. -/
theorem reconStep_completed (b : Bool) (l : Ledger)
    (ps : List PaymentRecord) (s : SessionInfo) (n2 : Nat) (uid : String)
    (c : Int) (hpaid : s.paid = true)
    (huid : s.metaUserId = some uid) (huid' : uid ≠ "")
    (hc : s.metaCredits = some c) (hc' : c ≠ 0)
    (p : PaymentRecord) (hp : findPayment ps s.sessionId = some p)
    (hcomp : p.status = .completed)
    (r : LedgerRecord) (hrec : getRec l uid = some r) :
    reconStep b (l, ps) s n2 = (l, ps) := by
  have hnp : ¬ p.status = PayStatus.pending := by
    rw [hcomp]; intro hcon; exact absurd hcon (by decide)
  cases b with
  | true =>
      simp [reconStep, verifyHandler, hpaid, huid, huid', hc, hc', hp, hnp,
        getUserCredits_of_some l uid n2 r hrec]
  | false =>
      simp [reconStep, webhookHandler, huid, huid', hc, hc', hp, hnp]

/-- C4: the pending → completed transition happens at most once, and any
second reconciliation attempt on the same session — synchronous verify
or asynchronous webhook, in either order — is a no-op on ledger and
payments, so the balance after two reconciliation calls equals the
balance after one. -/
theorem recon_idempotent (a b : Bool) (l : Ledger)
    (ps : List PaymentRecord) (s : SessionInfo) (n1 n2 : Nat)
    (uid : String) (c : Int) (hpaid : s.paid = true)
    (huid : s.metaUserId = some uid) (huid' : uid ≠ "")
    (hc : s.metaCredits = some c) (hc' : c ≠ 0)
    (p : PaymentRecord) (hp : findPayment ps s.sessionId = some p)
    (hpend : p.status = .pending) :
    reconStep b (reconStep a (l, ps) s n1) s n2 =
      reconStep a (l, ps) s n1 ∧
    balanceOf (reconStep b (reconStep a (l, ps) s n1) s n2).1 uid =
      balanceOf (reconStep a (l, ps) s n1).1 uid := by
  have h1 := reconStep_pending a l ps s n1 uid c hpaid huid huid' hc hc'
    p hp hpend
  have hrec : getRec (addCredits l uid c n1).2 uid =
      some ((addCredits l uid c n1).1) := by
    cases hl : getRec l uid with
    | some r =>
        rw [addCredits_of_some l uid c n1 r hl]
        exact getRec_setRec_self l uid _
    | none =>
        rw [addCredits_of_none l uid c n1 hl]
        exact getRec_setRec_self l uid _
  have hfind := findPayment_completeFirst ps s.sessionId n1 p hp
  have h2 := reconStep_completed b (addCredits l uid c n1).2
    (completeFirst ps s.sessionId n1) s n2 uid c hpaid huid huid' hc hc'
    { p with status := .completed, completedAt := some n1 } hfind rfl
    ((addCredits l uid c n1).1) hrec
  rw [h1]
  exact ⟨h2, by rw [h2]⟩

/-- Witness for C4: a pending 50-credit payment reconciled first by the
webhook and then by verify; the second call changes nothing. -/
theorem recon_idempotent_witness :
    reconStep true
        (reconStep false
          ([], [{ id := "pay_1", userId := "u", tierId := "pro",
                  credits := 50, amount := 2000, status := .pending,
                  stripeSessionId := some "sess", createdAt := 0 }])
          ⟨"sess", true, some "u", some 50⟩ 1)
        ⟨"sess", true, some "u", some 50⟩ 2 =
      reconStep false
        ([], [{ id := "pay_1", userId := "u", tierId := "pro",
                credits := 50, amount := 2000, status := .pending,
                stripeSessionId := some "sess", createdAt := 0 }])
        ⟨"sess", true, some "u", some 50⟩ 1 :=
  (recon_idempotent false true []
    [{ id := "pay_1", userId := "u", tierId := "pro", credits := 50,
       amount := 2000, status := .pending, stripeSessionId := some "sess",
       createdAt := 0 }]
    ⟨"sess", true, some "u", some 50⟩ 1 2 "u" 50 rfl rfl (by decide) rfl
    (by decide) _ rfl rfl).1

/-- C7 counterexample: a verify call for a paid session with valid
metadata whose payment record cannot be found does not fail with a
validation error — it answers `{ success: true, creditsAdded: 50 }` —
and it mutates the ledger by creating the user's starter record. -/
theorem verify_missing_payment_succeeds :
    (verifyHandler [] [] ⟨"sess", true, some "u", some 50⟩ 0).resp =
      .ok 50 5 ∧
    (verifyHandler [] [] ⟨"sess", true, some "u", some 50⟩ 0).ledger =
      [("u", ⟨5, 0, 0, 0⟩)] := by
  decide

/-- C7 (amended): on a paid session, absent or malformed metadata
(`userId` falsy or `credits` parsing to 0) makes verify fail with a
validation error and mutate nothing; but a missing PaymentRecord with
valid metadata does not fail: verify reports success with
`creditsAdded`, leaves the payments list unchanged, grants no credit,
and the only possible ledger change is the creation of the user's
starter record by the final balance read. -/
theorem verify_error_handling (l : Ledger) (ps : List PaymentRecord)
    (s : SessionInfo) (now : Nat) (hpaid : s.paid = true) :
    ((s.metaUserId.getD "" = "" ∨ s.metaCredits.getD 0 = 0) →
      (verifyHandler l ps s now).resp = .invalidMetadata ∧
      (verifyHandler l ps s now).ledger = l ∧
      (verifyHandler l ps s now).payments = ps) ∧
    (∀ uid c, s.metaUserId = some uid → uid ≠ "" → s.metaCredits = some c →
      c ≠ 0 → findPayment ps s.sessionId = none →
      (verifyHandler l ps s now).resp =
        .ok c (getUserCredits l uid now).1.balance ∧
      (verifyHandler l ps s now).payments = ps ∧
      (verifyHandler l ps s now).ledger = (getUserCredits l uid now).2) := by
  constructor
  · intro hbad
    refine ⟨?_, ?_, ?_⟩ <;> simp [verifyHandler, hpaid, hbad]
  · intro uid c huid huid' hc hc' hnone
    refine ⟨?_, ?_, ?_⟩ <;>
      simp [verifyHandler, hpaid, huid, huid', hc, hc', hnone]

/-- Witness for the amended C7: absent metadata is rejected with no
mutation. -/
theorem verify_error_handling_witness :
    (verifyHandler [] [] ⟨"sess", true, none, some 50⟩ 0).resp =
      .invalidMetadata ∧
    (verifyHandler [] [] ⟨"sess", true, none, some 50⟩ 0).ledger = [] ∧
    (verifyHandler [] [] ⟨"sess", true, none, some 50⟩ 0).payments = [] :=
  (verify_error_handling [] [] ⟨"sess", true, none, some 50⟩ 0 rfl).1
    (by decide)

/-! ## Claims about the usage event recorder -/

theorem capEvents_of_le (es : List AEvent) (h : es.length ≤ 10000) :
    capEvents es = es := by
  rw [capEvents, if_neg (by omega)]

/-- As long as the retention cap is not hit, `trackEvent` folds keep the
whole event sequence. -/
theorem foldl_trackEvent_events : ∀ (es : List AEvent) (s : Analytics),
    s.events.length + es.length ≤ 10000 →
    (es.foldl trackEvent s).events = s.events ++ es
  | [], s, _ => by simp
  | e :: rest, s, h => by
      have hlen : (s.events ++ [e]).length ≤ 10000 := by
        simp only [List.length_cons] at h
        simp only [List.length_append, List.length_cons, List.length_nil]
        omega
      have he : (trackEvent s e).events = s.events ++ [e] := by
        simp [trackEvent, capEvents_of_le _ hlen]
      rw [List.foldl_cons,
        foldl_trackEvent_events rest (trackEvent s e)
          (by rw [he]; simp only [List.length_append, List.length_cons,
            List.length_nil, List.length_cons] at h ⊢; omega),
        he]
      simp

/-- C9 (amended): while at most 10000 events have ever been recorded —
that is, before the retention cap evicts anything — replaying the
retained event log from scratch reproduces exactly the incrementally
maintained summary aggregates. -/
theorem replay_roundtrip (es : List AEvent) (h : es.length ≤ 10000) :
    replaySummary (runEvents es) = (runEvents es).summary := by
  have hev : (runEvents es).events = es := by
    have h0 : (initialAnalytics.events).length + es.length ≤ 10000 := by
      simpa [initialAnalytics] using h
    simpa [runEvents, initialAnalytics] using
      foldl_trackEvent_events es initialAnalytics h0
  rw [replaySummary, hev, runEvents]

/-- Witness for the amended C9 on a two-event log. -/
theorem replay_roundtrip_witness :
    replaySummary (runEvents
        [{ type := "image_generated", userId := "u",
           mModel := some "dall-e-3" },
         { type := "credits_used", userId := "u", mCredits := some 2,
           mReason := some "image_generation" }]) =
      (runEvents
        [{ type := "image_generated", userId := "u",
           mModel := some "dall-e-3" },
         { type := "credits_used", userId := "u", mCredits := some 2,
           mReason := some "image_generation" }]).summary :=
  replay_roundtrip _ (by decide)

/-- A concrete `image_generated` event, as logged by the `/generate`
handler. -/
def genEvt : AEvent :=
  { type := "image_generated", userId := "u", mModel := some "dall-e-3",
    mCount := some 1, mCost := some 2 }

/-- The incremental counter counts every tracked `image_generated`
event, evicted or not. -/
theorem gen_total_replicate : ∀ (n : Nat) (s : Analytics),
    ((List.replicate n genEvt).foldl trackEvent s).summary.totalImagesGenerated =
      s.summary.totalImagesGenerated + n
  | 0, s => by simp
  | n + 1, s => by
      rw [List.replicate_succ, List.foldl_cons,
        gen_total_replicate n (trackEvent s genEvt)]
      have hstep : (trackEvent s genEvt).summary.totalImagesGenerated =
          s.summary.totalImagesGenerated + 1 := by
        simp [trackEvent, recompute, applyType, genEvt]
      omega

/-- C9 counterexample: after 10001 `image_generated` events the
incremental summary says 10001 images were generated, but the retained
log holds only the most recent 10000 events, so replay-from-scratch
reports 10000 — the materialized view and the replay disagree once the
retention cap has evicted events. -/
theorem trackEvent_events_eq (s : Analytics) (e : AEvent) :
    (trackEvent s e).events = capEvents (s.events ++ [e]) := rfl

theorem replay_roundtrip_fails_past_cap :
    replaySummary (runEvents (List.replicate 10001 genEvt)) ≠
      (runEvents (List.replicate 10001 genEvt)).summary := by
  have h1 : (runEvents (List.replicate 10001 genEvt)).summary.totalImagesGenerated
      = 10001 := by
    rw [runEvents, gen_total_replicate 10001 initialAnalytics]
    rfl
  have hev10000 : ((List.replicate 10000 genEvt).foldl trackEvent
      initialAnalytics).events = List.replicate 10000 genEvt := by
    have hlen : initialAnalytics.events.length +
        (List.replicate 10000 genEvt).length ≤ 10000 := by
      rw [List.length_replicate]
      exact Nat.le_refl _
    rw [foldl_trackEvent_events (List.replicate 10000 genEvt)
      initialAnalytics hlen]
    rfl
  have hev : (runEvents (List.replicate 10001 genEvt)).events =
      List.replicate 10000 genEvt := by
    have hsplit : List.replicate 10001 genEvt =
        List.replicate 10000 genEvt ++ [genEvt] :=
      List.replicate_succ' 10000 genEvt
    rw [runEvents, hsplit, List.foldl_append, List.foldl_cons,
      List.foldl_nil, trackEvent_events_eq, hev10000,
      ← List.replicate_succ' 10000 genEvt]
    show capEvents (List.replicate (10000 + 1) genEvt) =
      List.replicate 10000 genEvt
    rw [capEvents]
    rw [List.length_replicate,
      if_pos (Nat.lt_succ_self 10000), Nat.add_sub_cancel_left,
      List.replicate_succ]
    rfl
  have h2 : (replaySummary
      (runEvents (List.replicate 10001 genEvt))).totalImagesGenerated
      = 10000 := by
    rw [replaySummary, hev, runEvents,
      gen_total_replicate 10000 initialAnalytics]
    rfl
  intro hcon
  rw [hcon, h1] at h2
  exact absurd h2 (by omega)
